import Mathlib

/-!
# Verification of the chat-export fine-tuning data pipeline

Shallow embedding of `prepare_data.py` (both the top-level copy and the
`src/` copy, which differ only in the date-filter stage and some
refactoring).  Timestamps are modelled as epoch seconds (`Int`); Python's
`timedelta(d).seconds` attribute — the number of seconds *after the whole
days are removed*, always in `[0, 86400)` — is modelled with `Int.emod _ 86400`,
which agrees with Python's floor-based normalisation for negative
differences as well.  Python's float comparison `seconds / 60 < threshold`
is modelled as the exact integer comparison `seconds < 60 * threshold`,
which is equivalent for the integer values involved.
-/

namespace Finetuning

/-- `Message` of `prepare_data.py`: `date` (epoch seconds), `author`
(the `from` field), `text`. -/
structure Message where
  date : Int
  author : String
  text : String
deriving DecidableEq, Repr

/-- The `type` literal of a `Chat` record. -/
inductive ChatType where
  | personal_chat
  | private_group
  | private_supergroup
deriving DecidableEq, Repr

/-- `Chat` of `prepare_data.py` (the `sessions` field is modelled by
explicit data flow between the pipeline stages rather than mutation). -/
structure Chat where
  name : String
  type : ChatType
  messages : List Message
deriving DecidableEq, Repr

/-! ## SessionSegmenter: `create_sessions`

```python
def create_sessions(messages, threshold):
    sessions = []
    current_session = []
    for msg in messages:
        if (not current_session
                or (msg.date - current_session[-1].date).seconds / 60 < threshold):
            current_session.append(msg)
        else:
            sessions.append(current_session)
            current_session = [msg]
    if current_session:
        sessions.append(current_session)
    return sessions
```
-/

/-- The gap test of `create_sessions`:
`(msg.date - current_session[-1].date).seconds / 60 < threshold`.
Note `timedelta.seconds` keeps only the seconds left after removing whole
days, hence the `emod 86400`. -/
def gapSameSession (prev msg : Message) (threshold : Nat) : Bool :=
  decide ((msg.date - prev.date) % 86400 < 60 * (threshold : Int))

/-- The loop of `create_sessions` with its two accumulators
(`sessions`, `current_session`); the final `if current_session:` append
is the base case. -/
def create_sessions_aux (threshold : Nat) :
    List (List Message) → List Message → List Message → List (List Message)
  | sessions, current, [] => if current.isEmpty then sessions else sessions ++ [current]
  | sessions, [], msg :: rest => create_sessions_aux threshold sessions [msg] rest
  | sessions, c0 :: cs, msg :: rest =>
    if gapSameSession ((c0 :: cs).getLast (by simp)) msg threshold then
      create_sessions_aux threshold sessions ((c0 :: cs) ++ [msg]) rest
    else
      create_sessions_aux threshold (sessions ++ [c0 :: cs]) [msg] rest

/-- `create_sessions(messages, threshold)`. -/
def create_sessions (messages : List Message) (threshold : Nat) : List (List Message) :=
  create_sessions_aux threshold [] [] messages

theorem create_sessions_aux_join (threshold : Nat) :
    ∀ (msgs : List Message) (sessions : List (List Message)) (current : List Message),
      (create_sessions_aux threshold sessions current msgs).flatten
        = sessions.flatten ++ (current ++ msgs) := by
  intro msgs
  induction msgs with
  | nil =>
    intro sessions current
    cases current with
    | nil => simp [create_sessions_aux]
    | cons c cs => simp [create_sessions_aux]
  | cons m rest ih =>
    intro sessions current
    cases current with
    | nil => simpa using ih sessions [m]
    | cons c0 cs =>
      by_cases h : gapSameSession ((c0 :: cs).getLast (by simp)) m threshold
      · rw [create_sessions_aux, if_pos h, ih]
        simp
      · rw [create_sessions_aux, if_neg h, ih]
        simp

/-- Concatenating the sessions reproduces the input message list. -/
theorem create_sessions_join (messages : List Message) (threshold : Nat) :
    (create_sessions messages threshold).flatten = messages := by
  simpa using create_sessions_aux_join threshold messages [] []

theorem create_sessions_aux_ne_nil (threshold : Nat) :
    ∀ (msgs : List Message) (sessions : List (List Message)) (current : List Message),
      (∀ s ∈ sessions, s ≠ []) →
      ∀ s ∈ create_sessions_aux threshold sessions current msgs, s ≠ [] := by
  intro msgs
  induction msgs with
  | nil =>
    intro sessions current hsess s hs
    cases current with
    | nil => exact hsess s (by simpa [create_sessions_aux] using hs)
    | cons c cs =>
      have hs' : s ∈ sessions ∨ s = c :: cs := by
        simpa [create_sessions_aux] using hs
      rcases hs' with h | h
      · exact hsess s h
      · subst h; simp
  | cons m rest ih =>
    intro sessions current hsess s hs
    cases current with
    | nil => exact ih sessions [m] hsess s (by simpa [create_sessions_aux] using hs)
    | cons c0 cs =>
      by_cases h : gapSameSession ((c0 :: cs).getLast (by simp)) m threshold
      · rw [create_sessions_aux, if_pos h] at hs
        exact ih sessions ((c0 :: cs) ++ [m]) hsess s hs
      · rw [create_sessions_aux, if_neg h] at hs
        refine ih (sessions ++ [c0 :: cs]) [m] ?_ s hs
        intro t ht
        rcases List.mem_append.1 ht with h' | h'
        · exact hsess t h'
        · simp only [List.mem_singleton] at h'
          subst h'; simp

/-- Every session `create_sessions` emits is non-empty. -/
theorem create_sessions_ne_nil (messages : List Message) (threshold : Nat) :
    ∀ s ∈ create_sessions messages threshold, s ≠ [] :=
  create_sessions_aux_ne_nil threshold messages [] [] (by simp)

/-- The first elements of the blocks of a partition form a sublist of its
concatenation. -/
theorem filterMap_head_sublist (L : List (List Message)) :
    (L.filterMap List.head?).Sublist L.flatten := by
  induction L with
  | nil => simp
  | cons s rest ih =>
    cases s with
    | nil => simpa using ih
    | cons a t =>
      simp only [List.filterMap_cons, List.head?_cons, List.flatten]
      exact (ih.trans (List.sublist_append_right t rest.flatten)).cons₂ a

/-! ## MessageMerger: `combine_consecutive_messages`

```python
def combine_consecutive_messages(sessions, delimiter):
    combined_sessions = []
    for session in sessions:
        combined_session = []
        current_message = session[0]
        current_message.text = delimiter.lstrip() + current_message.text
        for msg in session[1:]:
            if msg.author == current_message.author:
                current_message.text += delimiter + msg.text
            else:
                combined_session.append(current_message)
                current_message = msg
                current_message.text = delimiter.lstrip() + current_message.text
        combined_session.append(current_message)
        combined_sessions.append(combined_session)
    return combined_sessions
```

`session[0]` raises `IndexError` on an empty session, modelled with `none`.
Python mutates the message objects in place; the model builds the final
text values functionally, which agrees with every value the pipeline
subsequently reads.
-/

/-- Python's `str.lstrip()` with no argument: drop leading whitespace. -/
def pyLstrip (s : String) : String :=
  String.mk (s.data.dropWhile Char.isWhitespace)

/-- `current_message.text = delimiter.lstrip() + current_message.text`:
the first message of a merge-run gets the stripped delimiter prepended. -/
def prependStripped (delimiter : String) (m : Message) : Message :=
  { m with text := pyLstrip delimiter ++ m.text }

/-- The inner loop of `combine_consecutive_messages`: `current` is
`current_message` (its stripped-delimiter prefix already applied), the
list argument is the remaining `session[1:]`. -/
def mergeLoop (delimiter : String) : Message → List Message → List Message
  | current, [] => [current]
  | current, msg :: rest =>
    if msg.author = current.author then
      mergeLoop delimiter { current with text := current.text ++ delimiter ++ msg.text } rest
    else
      current :: mergeLoop delimiter (prependStripped delimiter msg) rest

/-- One session's pass of `combine_consecutive_messages`; `none` models the
`IndexError` that `session[0]` raises on an empty session. -/
def combineSession (delimiter : String) : List Message → Option (List Message)
  | [] => none
  | first :: rest => some (mergeLoop delimiter (prependStripped delimiter first) rest)

/-- `combine_consecutive_messages(sessions, delimiter)`; `none` models the
`IndexError` raised when some session is empty. -/
def combine_consecutive_messages (sessions : List (List Message)) (delimiter : String) :
    Option (List (List Message)) :=
  match sessions with
  | [] => some []
  | s :: rest =>
    match combineSession delimiter s with
    | none => none
    | some c =>
      match combine_consecutive_messages rest delimiter with
      | none => none
      | some cs => some (c :: cs)

theorem mergeLoop_ne_nil (delimiter : String) :
    ∀ (l : List Message) (current : Message), mergeLoop delimiter current l ≠ [] := by
  intro l
  induction l with
  | nil => intro current; simp [mergeLoop]
  | cons msg rest ih =>
    intro current
    rw [mergeLoop]
    split
    · exact ih _
    · simp

theorem mergeLoop_head_author (delimiter : String) :
    ∀ (l : List Message) (current : Message),
      (mergeLoop delimiter current l).head?.map Message.author = some current.author := by
  intro l
  induction l with
  | nil => intro current; simp [mergeLoop]
  | cons msg rest ih =>
    intro current
    rw [mergeLoop]
    split
    · exact ih _
    · simp

/-- Adjacent messages of a merged session never share an author. -/
theorem mergeLoop_chain (delimiter : String) :
    ∀ (l : List Message) (current : Message),
      (mergeLoop delimiter current l).Chain' (fun a b => a.author ≠ b.author) := by
  intro l
  induction l with
  | nil => intro current; simp [mergeLoop]
  | cons msg rest ih =>
    intro current
    rw [mergeLoop]
    split
    · exact ih _
    · next hne =>
      refine List.chain'_cons'.2 ⟨?_, ih (prependStripped delimiter msg)⟩
      intro b hb
      have h := mergeLoop_head_author delimiter rest (prependStripped delimiter msg)
      rw [hb] at h
      have h2 : b.author = (prependStripped delimiter msg).author := Option.some.inj h
      intro e
      exact hne ((e.trans h2).symm)

/-- The authors of the merged messages are the authors of the first member
of each merge-run: `destutter'` over inequality keeps exactly those. -/
theorem mergeLoop_map_author (delimiter : String) :
    ∀ (l : List Message) (current : Message),
      (mergeLoop delimiter current l).map Message.author
        = List.destutter' (· ≠ ·) current.author (l.map Message.author) := by
  intro l
  induction l with
  | nil => intro current; simp [mergeLoop, List.destutter']
  | cons msg rest ih =>
    intro current
    rw [mergeLoop]
    by_cases h : msg.author = current.author
    · have hcond : ¬(current.author ≠ msg.author) := fun ne => ne h.symm
      rw [if_pos h, ih { current with text := current.text ++ delimiter ++ msg.text },
        List.map_cons, List.destutter'_cons_neg _ hcond]
    · have hcond : current.author ≠ msg.author := fun e => h e.symm
      rw [if_neg h, List.map_cons, List.map_cons,
        List.destutter'_cons_pos _ hcond, ih (prependStripped delimiter msg)]
      rfl

/-- When every message of the run shares the current author, the whole run
collapses to a single message. -/
theorem mergeLoop_all_same (delimiter : String) :
    ∀ (l : List Message) (current : Message),
      (∀ m ∈ l, m.author = current.author) →
      (mergeLoop delimiter current l).length = 1 := by
  intro l
  induction l with
  | nil => intro current _; simp [mergeLoop]
  | cons msg rest ih =>
    intro current hall
    rw [mergeLoop, if_pos (hall msg (by simp))]
    refine ih _ ?_
    intro m hm
    simpa using hall m (by simp [hm])

/-- Every session the merger returns is non-empty with strictly
alternating authors. -/
theorem combineSession_good (delimiter : String) (s out : List Message)
    (h : combineSession delimiter s = some out) :
    out ≠ [] ∧ out.Chain' (fun a b => a.author ≠ b.author) := by
  cases s with
  | nil => simp [combineSession] at h
  | cons first rest =>
    have h' : mergeLoop delimiter (prependStripped delimiter first) rest = out :=
      Option.some.inj h
    rw [← h']
    exact ⟨mergeLoop_ne_nil delimiter rest _, mergeLoop_chain delimiter rest _⟩

/-- When the author changes at every step, the merge loop merges nothing:
it only prepends the stripped delimiter to each remaining message. -/
theorem mergeLoop_no_merge (delimiter : String) :
    ∀ (l : List Message) (current : Message),
      (∀ b ∈ l.head?, current.author ≠ b.author) →
      l.Chain' (fun a b => a.author ≠ b.author) →
      mergeLoop delimiter current l = current :: l.map (prependStripped delimiter) := by
  intro l
  induction l with
  | nil => intro current _ _; simp [mergeLoop]
  | cons msg rest ih =>
    intro current hhead hchain
    have hne : ¬msg.author = current.author :=
      fun e => hhead msg (by simp) e.symm
    rw [mergeLoop, if_neg hne, List.map_cons]
    have := ih (prependStripped delimiter msg)
      (fun b hb => (List.chain'_cons'.1 hchain).1 b hb)
      (List.chain'_cons'.1 hchain).2
    rw [this]

/-- Applying the merger to a session that is already merged (non-empty,
strictly alternating authors) merges nothing: every message just gains one
more stripped-delimiter prefix. -/
theorem combineSession_already_merged (delimiter : String) (s : List Message)
    (hne : s ≠ []) (hchain : s.Chain' (fun a b => a.author ≠ b.author)) :
    combineSession delimiter s = some (s.map (prependStripped delimiter)) := by
  cases s with
  | nil => exact absurd rfl hne
  | cons first rest =>
    rw [combineSession, List.map_cons]
    have hhead : ∀ b ∈ rest.head?, (prependStripped delimiter first).author ≠ b.author :=
      fun b hb => (List.chain'_cons'.1 hchain).1 b hb
    rw [mergeLoop_no_merge delimiter rest (prependStripped delimiter first) hhead
      (List.chain'_cons'.1 hchain).2]

/-- Inversion for the session list: every output session of
`combine_consecutive_messages` is the merger's image of some input session. -/
theorem combine_consecutive_messages_inv (delimiter : String) :
    ∀ (S0 S : List (List Message)),
      combine_consecutive_messages S0 delimiter = some S →
      ∀ s ∈ S, ∃ s0, combineSession delimiter s0 = some s := by
  intro S0
  induction S0 with
  | nil =>
    intro S h s hs
    rw [combine_consecutive_messages] at h
    rw [← Option.some.inj h] at hs
    simp at hs
  | cons t rest ih =>
    intro S h s hs
    rw [combine_consecutive_messages] at h
    cases hc : combineSession delimiter t with
    | none => rw [hc] at h; exact absurd h (by simp)
    | some c =>
      rw [hc] at h
      cases hr : combine_consecutive_messages rest delimiter with
      | none => rw [hr] at h; exact absurd h (by simp)
      | some cs =>
        rw [hr] at h
        rw [← Option.some.inj h] at hs
        rcases List.mem_cons.1 hs with h' | h'
        · exact ⟨t, h' ▸ hc⟩
        · exact ih cs hr s h'

/-- On a list of non-empty, already-merged sessions the merger succeeds and
prepends the stripped delimiter once more throughout. -/
theorem combine_already_merged (delimiter : String) :
    ∀ (S : List (List Message)),
      (∀ s ∈ S, s ≠ [] ∧ s.Chain' (fun a b => a.author ≠ b.author)) →
      combine_consecutive_messages S delimiter
        = some (S.map (List.map (prependStripped delimiter))) := by
  intro S
  induction S with
  | nil => intro _; simp [combine_consecutive_messages]
  | cons s rest ih =>
    intro hgood
    rw [combine_consecutive_messages,
      combineSession_already_merged delimiter s (hgood s (by simp)).1 (hgood s (by simp)).2,
      ih (fun t ht => hgood t (by simp [ht]))]
    simp

/-- The merger succeeds on any list of non-empty sessions. -/
theorem combine_isSome_of_ne_nil (delimiter : String) :
    ∀ (S : List (List Message)), (∀ s ∈ S, s ≠ []) →
      ∃ C, combine_consecutive_messages S delimiter = some C := by
  intro S
  induction S with
  | nil => intro _; exact ⟨[], rfl⟩
  | cons s rest ih =>
    intro hne
    cases s with
    | nil => exact absurd rfl (hne [] (by simp))
    | cons first tail =>
      obtain ⟨C, hC⟩ := ih (fun t ht => hne t (by simp [ht]))
      refine ⟨mergeLoop delimiter (prependStripped delimiter first) tail :: C, ?_⟩
      rw [combine_consecutive_messages, combineSession, hC]

/-- When the stripped delimiter is empty, prepending it changes nothing. -/
theorem prependStripped_of_lstrip_empty (delimiter : String)
    (h : pyLstrip delimiter = "") (m : Message) :
    prependStripped delimiter m = m := by
  rw [prependStripped, h]
  cases m with
  | mk date author text =>
    simp only [Message.mk.injEq, and_true, true_and]
    cases text with
    | mk data => rfl

/-! ## DateFilter

The `src/` copy of `transform_chats` filters in two steps:

```python
for chat in chats:
    chat.messages = [msg for msg in chat.messages
                     if msg.date > datetime.now() - timedelta(days=last_x_months * 30)]
chats = [chat for chat in chats if chat.messages]
```

The top-level copy instead writes the one-step walrus/`setattr` comprehension

```python
chats = [chat for chat in chats
         if (filtered_messages := [msg for msg in chat.messages if msg.date > cutoff_date])
         and setattr(chat, "messages", filtered_messages)]
```

whose condition is the value of `filtered_messages and setattr(...)`; when
`filtered_messages` is non-empty that value is `setattr`'s return value
`None`, which is falsy, so no chat satisfies the comprehension.  The cutoff
instant `datetime.now() - timedelta(days=last_x_months * 30)` is abstracted
into the `cutoff` parameter. -/

/-- One chat after the per-chat message filter `msg.date > cutoff_date`. -/
def filterChatMessages (cutoff : Int) (chat : Chat) : Chat :=
  { chat with messages := chat.messages.filter (fun m => decide (cutoff < m.date)) }

/-- The two-step date filter of `src/src/prepare_data.py` (lines 92-99). -/
def date_filter (cutoff : Int) (chats : List Chat) : List Chat :=
  (chats.map (filterChatMessages cutoff)).filter (fun c => !c.messages.isEmpty)

/-- The truth value of `filtered_messages and setattr(chat, "messages",
filtered_messages)`: `setattr` returns `None` (falsy), so the conjunction is
falsy whether or not `filtered_messages` is empty. -/
def walrusSetattrTruthy (filteredMessages : List Message) : Bool :=
  !filteredMessages.isEmpty && false

/-- The one-step date filter of `src/prepare_data.py` (lines 79-88), with
the comprehension condition evaluated as Python does. -/
def date_filter_walrus (cutoff : Int) (chats : List Chat) : List Chat :=
  chats.filter (fun chat =>
    walrusSetattrTruthy (chat.messages.filter (fun m => decide (cutoff < m.date))))

/-! ## SessionFilter

```python
chat.sessions = [session for session in chat.sessions
                 if any(msg.author == target_name for msg in session[1:])]
```

`target_name` can be `None` (detection failed, no override); Python's
`msg.author == None` is then `False` for every message. -/

/-- The predicate `msg.author == target_name` for one message. -/
def authorMatches (target : Option String) (m : Message) : Bool :=
  match target with
  | none => false
  | some n => m.author == n

/-- The session filter: keep a session when some message of `session[1:]`
matches the target. -/
def filter_sessions (target : Option String) (sessions : List (List Message)) :
    List (List Message) :=
  sessions.filter (fun session => (session.drop 1).any (authorMatches target))

/-! ## Formatter and Writer

```python
session_dicts = [
    {"text": "\n".join(
        f"<|im_start|>{msg.author}\n{msg.text}<|im_end|>" for msg in session)}
    for session in all_sessions]
with open(output, "w", encoding="utf-8") as f:
    for session in session_dicts:
        json.dump(session, f, ensure_ascii=False)
        f.write("\n")
```
-/

/-- Python's `str.join`: the separator between consecutive items. -/
def joinWith (sep : String) : List String → String
  | [] => ""
  | [x] => x
  | x :: xs => x ++ sep ++ joinWith sep xs

/-- One turn of the markup:
`f"<|im_start|>{msg.author}\n{msg.text}<|im_end|>"`. -/
def format_turn (m : Message) : String :=
  "<|im_start|>" ++ m.author ++ "\n" ++ m.text ++ "<|im_end|>"

/-- One session's `"text"` value: the turns joined by single newlines. -/
def format_session (session : List Message) : String :=
  joinWith "\n" (session.map format_turn)

/-- A hexadecimal digit as `json.dumps` prints it (lowercase). -/
def hexDigit (n : Nat) : Char :=
  if n < 10 then Char.ofNat (48 + n) else Char.ofNat (87 + n)

/-- One character of a JSON string as `json.dumps(..., ensure_ascii=False)`
writes it: `"` and `\` are escaped, control characters below `0x20` use the
short escapes or `\u00XX`, everything else is written literally. -/
def jsonEscapeChar (c : Char) : String :=
  if c = '"' then "\\\""
  else if c = '\\' then "\\\\"
  else if c = '\n' then "\\n"
  else if c = '\t' then "\\t"
  else if c = '\r' then "\\r"
  else if c = Char.ofNat 8 then "\\b"
  else if c = Char.ofNat 12 then "\\f"
  else if c.toNat < 32 then
    "\\u00" ++ String.mk [hexDigit (c.toNat / 16), hexDigit (c.toNat % 16)]
  else String.mk [c]

/-- The JSON encoding of a string value. -/
def jsonString (s : String) : String :=
  "\"" ++ String.join (s.data.map jsonEscapeChar) ++ "\""

/-- One output line: `json.dumps({"text": blob}, ensure_ascii=False)`. -/
def jsonLine (blob : String) : String :=
  "\x7b\"text\": " ++ jsonString blob ++ "\x7d"

/-- The lines written for the flattened list of surviving sessions. -/
def output_lines (allSessions : List (List Message)) : List String :=
  allSessions.map (fun session => jsonLine (format_session session))

/-- The output file's content after a run.  `open(output, "w")` truncates
the file, so the previous content is discarded; each record is written as
one line terminated by `"\n"`. -/
def write_output (_previousContent : String) (lines : List String) : String :=
  String.join (lines.map (fun l => l ++ "\n"))

/-! ## Loader: `load_chats`

```python
for chat in json.load(f)["chats"]["list"]:
    if "name" not in chat:
        target_id = int(chat["id"])
        target_name = str(next(msg for msg in chat["messages"]
                               if msg["from_id"] == f"user{target_id}")["from"])
    elif chat["name"]:
        messages = [Message(date=msg["date"], author=msg["from"],
                            text="".join(t["text"] for t in msg["text_entities"])
                                 + msg.get("sticker_emoji", ""))
                    for msg in chat["messages"]
                    if "from" in msg and msg["from"]
                    and (msg["text_entities"] or "sticker_emoji" in msg)]
        if messages:
            chats.append(Chat(name=chat["name"], type=chat["type"], messages=messages))
```

The raw export is modelled after `json["chats"]["list"]` (a missing top-level
key is a fatal parse error before this loop and is not modelled further).
`next(...)` without a default raises `StopIteration` when no message of the
self-record matches, and `msg["from"]` raises `KeyError` when the key is
absent; both are modelled as `Except.error`. -/

/-- A raw message record of the export: `from_id`, the optional `from`
display name (`none` models an absent key), `date`, the `text` of each
`text_entities` fragment and the optional `sticker_emoji`. -/
structure RawMessage where
  from_id : String
  fromName : Option String
  date : Int
  text_entities : List String
  sticker_emoji : Option String
deriving DecidableEq, Repr

/-- A raw chat entry of the export; `name = none` models an entry without
the `"name"` key (the distinguished self-record), `some ""` a deleted
account. -/
structure RawChat where
  name : Option String
  id : Int
  type : ChatType
  messages : List RawMessage
deriving DecidableEq, Repr

/-- The message comprehension's filter and construction: a record is kept
when `"from" in msg and msg["from"] and (msg["text_entities"] or
"sticker_emoji" in msg)`; its text is the concatenated fragment texts with
any sticker emoji appended. -/
def rawToMessage (rm : RawMessage) : Option Message :=
  match rm.fromName with
  | none => none
  | some author =>
    if author = "" then none
    else if rm.text_entities.isEmpty && rm.sticker_emoji.isNone then none
    else some { date := rm.date, author := author,
                text := String.join rm.text_entities ++ rm.sticker_emoji.getD "" }

/-- The loop of `load_chats` over the export's chat entries, carrying the
accumulated chats and the target id/name. -/
def load_chats_aux (acc : List Chat) (targetId : Option Int) (targetName : Option String) :
    List RawChat → Except String (List Chat × (Option Int × Option String))
  | [] => Except.ok (acc, (targetId, targetName))
  | rc :: rest =>
    match rc.name with
    | none =>
      match rc.messages.find? (fun m => m.from_id == "user" ++ toString rc.id) with
      | none => Except.error "StopIteration"
      | some m =>
        match m.fromName with
        | none => Except.error "KeyError"
        | some nm => load_chats_aux acc (some rc.id) (some nm) rest
    | some nm =>
      if nm = "" then load_chats_aux acc targetId targetName rest
      else
        match rc.messages.filterMap rawToMessage with
        | [] => load_chats_aux acc targetId targetName rest
        | m0 :: ms =>
          load_chats_aux
            (acc ++ [{ name := nm, type := rc.type, messages := m0 :: ms }])
            targetId targetName rest

/-- `load_chats`: the chat list and the `(target_id, target_name)` pair, or
the uncaught exception the loop raises. -/
def load_chats (exportChats : List RawChat) :
    Except String (List Chat × (Option Int × Option String)) :=
  load_chats_aux [] none none exportChats

/-! ## The pipeline: `transform_chats`

The pure part of `transform_chats` (as in `src/src/prepare_data.py`): the
loaded chats and the resolved target name are parameters, the cutoff
instant replaces `datetime.now() - timedelta(days=last_x_months * 30)`,
and the result is the list of lines written to the output file.  `none`
models the `IndexError` the merger would raise on an empty session (shown
unreachable below). -/

/-- Per-chat segmentation, merging and filtering, and the flattening of all
surviving sessions in chat order (`all_sessions` of the source). -/
def sessions_of_chats (target : Option String) (threshold : Nat) (delimiter : String) :
    List Chat → Option (List (List Message))
  | [] => some []
  | chat :: rest =>
    match combine_consecutive_messages (create_sessions chat.messages threshold) delimiter with
    | none => none
    | some combined =>
      match sessions_of_chats target threshold delimiter rest with
      | none => none
      | some others => some (filter_sessions target combined ++ others)

/-- The whole transformation, from loaded chats to output lines. -/
def transform_chats (chats : List Chat) (target : Option String) (cutoff : Int)
    (threshold : Nat) (delimiter : String) : Option (List String) :=
  (sessions_of_chats target threshold delimiter (date_filter cutoff chats)).map output_lines

/-- The per-chat stage always succeeds: every session `create_sessions`
returns is non-empty, so the merger's error branch is unreachable. -/
theorem sessions_of_chats_isSome (target : Option String) (threshold : Nat)
    (delimiter : String) :
    ∀ chats : List Chat, ∃ ss, sessions_of_chats target threshold delimiter chats = some ss := by
  intro chats
  induction chats with
  | nil => exact ⟨[], rfl⟩
  | cons chat rest ih =>
    obtain ⟨ss, hss⟩ := ih
    obtain ⟨C, hC⟩ := combine_isSome_of_ne_nil delimiter
      (create_sessions chat.messages threshold)
      (create_sessions_ne_nil chat.messages threshold)
    exact ⟨filter_sessions target C ++ ss, by rw [sessions_of_chats, hC, hss]⟩

/-! ## Helper lemmas for the claims -/

instance : Inhabited Message := ⟨⟨0, "", ""⟩⟩

/-- With `target_name = None`, `msg.author == target_name` is `False` for
every message. -/
theorem any_authorMatches_none (l : List Message) : l.any (authorMatches none) = false := by
  induction l with
  | nil => rfl
  | cons m rest ih => simp [List.any_cons, authorMatches, ih]

/-- With `target_name = None` no session passes the session filter. -/
theorem filter_sessions_none (sessions : List (List Message)) :
    filter_sessions none sessions = [] := by
  induction sessions with
  | nil => rfl
  | cons s rest ih =>
    rw [filter_sessions] at ih ⊢
    rw [List.filter_cons, any_authorMatches_none, ih]
    simp

/-- With `target_name = None` the pipeline keeps no session at all. -/
theorem sessions_of_chats_none (threshold : Nat) (delimiter : String) :
    ∀ chats : List Chat, sessions_of_chats none threshold delimiter chats = some [] := by
  intro chats
  induction chats with
  | nil => rfl
  | cons chat rest ih =>
    obtain ⟨C, hC⟩ := combine_isSome_of_ne_nil delimiter
      (create_sessions chat.messages threshold)
      (create_sessions_ne_nil chat.messages threshold)
    rw [sessions_of_chats, hC, ih]
    simp [filter_sessions_none]

/-- A member of `session[1:]` is exactly a message at a position `≥ 1`. -/
theorem exists_mem_drop_one_iff (s : List Message) (n : String) :
    (∃ m ∈ s.drop 1, m.author = n)
      ↔ ∃ i, 1 ≤ i ∧ i < s.length ∧ (s.getD i default).author = n := by
  constructor
  · rintro ⟨m, hm, ha⟩
    obtain ⟨j, hj, hget⟩ := List.mem_drop_iff_getElem.1 hm
    refine ⟨1 + j, by omega, by omega, ?_⟩
    rw [List.getD_eq_getElem s default (by omega)]
    exact hget ▸ ha
  · rintro ⟨i, h1, hlen, ha⟩
    refine ⟨s.getD i default, ?_, ha⟩
    rw [List.getD_eq_getElem s default hlen]
    have hidx : 1 + (i - 1) = i := by omega
    refine List.mem_drop_iff_getElem.2 ⟨i - 1, by omega, ?_⟩
    simp only [hidx]

/-- Pointwise-identity prefixing leaves the session list unchanged. -/
theorem map_map_prependStripped_id (delimiter : String) (h : pyLstrip delimiter = "")
    (S : List (List Message)) : S.map (List.map (prependStripped delimiter)) = S := by
  have hfun : prependStripped delimiter = id :=
    funext (prependStripped_of_lstrip_empty delimiter h)
  rw [hfun]
  simp

/-! ## Concrete inputs used by the claims -/

/-- C1: two messages one day and five minutes apart. -/
def c1A : Message := ⟨0, "Alice", "hi"⟩

/-- C1: `86700 = 86400 + 300` seconds after `c1A`. -/
def c1B : Message := ⟨86700, "Bob", "hello"⟩

/-- C2: a chat whose only message is newer than the cutoff `0`. -/
def c2Chat : Chat :=
  { name := "friend", type := ChatType.personal_chat,
    messages := [⟨100, "Alice", "hi"⟩] }

/-- C4: a self-record (no `"name"` key) whose only message has a
`from_id` different from `user123`. -/
def c4SelfRecord : RawChat :=
  { name := none, id := 123, type := ChatType.personal_chat,
    messages := [{ from_id := "user999", fromName := some "Bob", date := 0,
                   text_entities := ["hi"], sticker_emoji := none }] }

/-- C6: a session with a same-author run followed by an author change. -/
def c6Session : List Message := [⟨0, "a", "x"⟩, ⟨60, "a", "y"⟩, ⟨120, "b", "z"⟩]

/-- C8: the two messages of the counterexample, 1440 minutes apart. -/
def c8A : Message := ⟨0, "Alice", "hi"⟩

/-- C8: exactly one day after `c8A`. -/
def c8B : Message := ⟨86400, "Bob", "hello"⟩

/-- C8 witness: start of the pair. -/
def c8W : Message := ⟨0, "Alice", "hi"⟩

/-- C8 witness: exactly 10 minutes after `c8W`. -/
def c8X : Message := ⟨600, "Bob", "hello"⟩

/-- C8 witness: exactly 9 minutes after `c8W`. -/
def c8Y : Message := ⟨540, "Bob", "hello"⟩

/-- C9 witness: a two-author chat. -/
def c9Chat : Chat :=
  { name := "pal", type := ChatType.personal_chat,
    messages := [⟨0, "Bob", "q"⟩, ⟨60, "Alice", "a"⟩] }

/-! ## The claims -/

/-- C1.  The claim says the session gap test compares the true elapsed
time; the code compares `timedelta.seconds / 60`, which discards whole
days.  At the concrete input the true gap is `1445` minutes — not less
than the threshold `10`, so the claim demands a new session — yet
`create_sessions` keeps both messages in one session because
`86700 % 86400 = 300` seconds is only `5` minutes. -/
theorem c1_day_truncated_gap :
    c1B.date - c1A.date = 60 * 1445
    ∧ ¬(c1B.date - c1A.date < 60 * (10 : Int))
    ∧ create_sessions [c1A, c1B] 10 = [[c1A, c1B]] :=
  ⟨by decide, by decide, by decide⟩

/-- C2.  The claim says the date filter keeps every chat that retains at
least one message.  In `src/prepare_data.py` the filtering comprehension's
condition is `filtered_messages and setattr(chat, "messages",
filtered_messages)`, and `setattr` returns the falsy `None`, so the
comprehension keeps no chat at all; the two-step filter of
`src/src/prepare_data.py` keeps `c2Chat`, whose message is newer than the
cutoff, as the claim describes. -/
theorem c2_walrus_filter_drops_every_chat :
    (∀ (cutoff : Int) (chats : List Chat), date_filter_walrus cutoff chats = [])
    ∧ date_filter 0 [c2Chat] = [c2Chat]
    ∧ c2Chat.messages ≠ [] := by
  refine ⟨?_, by decide, by decide⟩
  intro cutoff chats
  simp [date_filter_walrus, walrusSetattrTruthy]

/-- C3.  A session passes the filter exactly when some message at a
position `≥ 1` (excluding the session's first message) has the target
author; with `target_name = None` nothing passes and the whole pipeline
still completes, producing an empty line list. -/
theorem c3_session_filter_target_presence :
    (∀ (n : String) (sessions : List (List Message)) (s : List Message),
        s ∈ filter_sessions (some n) sessions
          ↔ s ∈ sessions ∧ ∃ i, 1 ≤ i ∧ i < s.length ∧ (s.getD i default).author = n)
    ∧ (∀ sessions : List (List Message), filter_sessions none sessions = [])
    ∧ (∀ (chats : List Chat) (cutoff : Int) (threshold : Nat) (delimiter : String),
        transform_chats chats none cutoff threshold delimiter = some []) := by
  refine ⟨?_, filter_sessions_none, ?_⟩
  · intro n sessions s
    rw [filter_sessions, List.mem_filter]
    refine and_congr_right fun _ => ?_
    rw [← exists_mem_drop_one_iff s n, List.any_eq_true]
    constructor
    · rintro ⟨m, hm, hb⟩
      exact ⟨m, hm, by simpa [authorMatches] using hb⟩
    · rintro ⟨m, hm, ha⟩
      exact ⟨m, hm, by simpa [authorMatches] using ha⟩
  · intro chats cutoff threshold delimiter
    rw [transform_chats, sessions_of_chats_none]
    rfl

/-- C4.  The claim says the loader survives a self-record with no
message from `user{identifier}`; in the code `next(...)` has no default,
and at this concrete export it raises `StopIteration`, aborting the run
instead of warning. -/
theorem c4_loader_uncaught_stop_iteration :
    load_chats [c4SelfRecord] = Except.error "StopIteration" := by
  rfl

/-- C5 counterexample.  The merger is not idempotent: re-applying it to
its own output (one already-merged single-message session, delimiter
`"\n>>>"`) prepends the stripped delimiter `">>>"` once more, changing
the text. -/
theorem c5_not_idempotent :
    combine_consecutive_messages [[⟨0, "Alice", "hi"⟩]] "\n>>>"
      = some [[⟨0, "Alice", ">>>hi"⟩]]
    ∧ combine_consecutive_messages [[⟨0, "Alice", ">>>hi"⟩]] "\n>>>"
      = some [[⟨0, "Alice", ">>>>>>hi"⟩]]
    ∧ [[(⟨0, "Alice", ">>>>>>hi"⟩ : Message)]] ≠ [[(⟨0, "Alice", ">>>hi"⟩ : Message)]] :=
  ⟨by decide, by decide, by decide⟩

/-- C5 as amended.  Re-applying the merger to its own output returns the
same sessions, authors and message counts, with exactly one more copy of
the left-stripped delimiter prepended to every text; it is the identity
precisely when the stripped delimiter is empty. -/
theorem c5_reapply_prepends_delimiter (delimiter : String) (S0 S : List (List Message))
    (h : combine_consecutive_messages S0 delimiter = some S) :
    combine_consecutive_messages S delimiter
      = some (S.map (List.map (prependStripped delimiter)))
    ∧ (pyLstrip delimiter = "" → combine_consecutive_messages S delimiter = some S) := by
  have hgood : ∀ s ∈ S, s ≠ [] ∧ s.Chain' (fun a b => a.author ≠ b.author) := by
    intro s hs
    obtain ⟨s0, hs0⟩ := combine_consecutive_messages_inv delimiter S0 S h s hs
    exact combineSession_good delimiter s0 s hs0
  refine ⟨combine_already_merged delimiter S hgood, ?_⟩
  intro hempty
  rw [combine_already_merged delimiter S hgood,
    map_map_prependStripped_id delimiter hempty S]

/-- C5 witness: the amended theorem applied to the merger's output on a
concrete one-session input. -/
theorem c5_witness :
    combine_consecutive_messages [[⟨0, "Bob", ">>>hey"⟩]] "\n>>>"
      = some [[⟨0, "Bob", ">>>>>>hey"⟩]] := by
  have H := (c5_reapply_prepends_delimiter "\n>>>" [[⟨0, "Bob", "hey"⟩]]
    [[⟨0, "Bob", ">>>hey"⟩]] (by decide)).1
  exact H.trans (by decide)

/-- C6.  On every non-empty session the merger succeeds and returns a
non-empty session whose adjacent messages never share an author; its
author sequence is the destuttering of the input's author sequence (each
surviving message carries the author of the first member of its
merge-run), and a session with a single author collapses to one
message. -/
theorem c6_merged_session_invariants (delimiter : String) (s : List Message) (h : s ≠ []) :
    (combineSession delimiter s).isSome = true
    ∧ ∀ out, combineSession delimiter s = some out →
        out ≠ []
        ∧ out.Chain' (fun a b => a.author ≠ b.author)
        ∧ out.map Message.author = (s.map Message.author).destutter (· ≠ ·)
        ∧ ((∀ m ∈ s, ∀ m' ∈ s, m.author = m'.author) → out.length = 1) := by
  cases s with
  | nil => exact absurd rfl h
  | cons first rest =>
    refine ⟨rfl, ?_⟩
    intro out hout
    have hout' : mergeLoop delimiter (prependStripped delimiter first) rest = out :=
      Option.some.inj hout
    refine ⟨hout' ▸ mergeLoop_ne_nil delimiter rest _,
      hout' ▸ mergeLoop_chain delimiter rest _, ?_, ?_⟩
    · rw [← hout', mergeLoop_map_author, List.map_cons, List.destutter_cons']
      rfl
    · intro hall
      rw [← hout']
      refine mergeLoop_all_same delimiter rest _ ?_
      intro m hm
      exact hall m (by simp [hm]) first (by simp)

/-- C6 witness: the invariants evaluated on a concrete session with one
merge-run of length two and an author change. -/
theorem c6_witness :
    ([⟨0, "a", ">>>x\n>>>y"⟩, ⟨120, "b", ">>>z"⟩] : List Message) ≠ []
    ∧ ([⟨0, "a", ">>>x\n>>>y"⟩, ⟨120, "b", ">>>z"⟩] : List Message).Chain'
        (fun a b => a.author ≠ b.author)
    ∧ ([⟨0, "a", ">>>x\n>>>y"⟩, ⟨120, "b", ">>>z"⟩] : List Message).map Message.author
        = (c6Session.map Message.author).destutter (· ≠ ·)
    ∧ ((∀ m ∈ c6Session, ∀ m' ∈ c6Session, m.author = m'.author)
        → ([⟨0, "a", ">>>x\n>>>y"⟩, ⟨120, "b", ">>>z"⟩] : List Message).length = 1) :=
  (c6_merged_session_invariants "\n>>>" c6Session (by decide)).2
    [⟨0, "a", ">>>x\n>>>y"⟩, ⟨120, "b", ">>>z"⟩] (by decide)

/-- C7.  `create_sessions` partitions its input: the sessions concatenate
back to the input list, every session is non-empty, occurrence counts are
preserved (no message is duplicated into two sessions), the sessions'
first messages appear in chronological order whenever the input is
chronologically ordered, and a single message yields the single-message
session `[[m]]`. -/
theorem c7_create_sessions_partition (messages : List Message) (threshold : Nat) :
    (create_sessions messages threshold).flatten = messages
    ∧ (∀ s ∈ create_sessions messages threshold, s ≠ [])
    ∧ (∀ m : Message,
        ((create_sessions messages threshold).map (List.count m)).sum = messages.count m)
    ∧ (messages.Pairwise (fun a b => a.date ≤ b.date) →
        ((create_sessions messages threshold).filterMap List.head?).Pairwise
          (fun a b => a.date ≤ b.date))
    ∧ (∀ m : Message, create_sessions [m] threshold = [[m]]) := by
  refine ⟨create_sessions_join messages threshold,
    create_sessions_ne_nil messages threshold, ?_, ?_, fun m => rfl⟩
  · intro m
    conv_rhs => rw [← create_sessions_join messages threshold]
    exact (List.count_flatten m (create_sessions messages threshold)).symm
  · intro hp
    have hsub := filterMap_head_sublist (create_sessions messages threshold)
    rw [create_sessions_join messages threshold] at hsub
    exact hp.sublist hsub

/-- C8 counterexample.  With threshold `1440` minutes and a gap of exactly
`1440` minutes (one day), the claim demands a new session; the code's
day-truncated gap is `86400 % 86400 = 0` seconds, so both messages stay
in one session. -/
theorem c8_equal_gap_kept_at_day_threshold :
    c8B.date - c8A.date = 60 * 1440
    ∧ create_sessions [c8A, c8B] 1440 = [[c8A, c8B]] :=
  ⟨by decide, by decide⟩

/-- C8 as amended.  For thresholds below one day (`1 ≤ t < 1440`
minutes) the boundary behaves as claimed: a gap of exactly `t` minutes
starts a new session and a gap of `t - 1` minutes extends the current
one. -/
theorem c8_threshold_boundary (a b : Message) (t : Nat) (h1 : 1 ≤ t) (h2 : t < 1440) :
    (b.date - a.date = 60 * (t : Int) → create_sessions [a, b] t = [[a], [b]])
    ∧ (b.date - a.date = 60 * ((t : Int) - 1) → create_sessions [a, b] t = [[a, b]]) := by
  constructor
  · intro hd
    have h0 : (0 : Int) ≤ 60 * (t : Int) := by positivity
    have hlt : 60 * (t : Int) < 86400 := by omega
    have hgap : gapSameSession a b t = false := by
      rw [gapSameSession, hd, Int.emod_eq_of_lt h0 hlt]
      simp
    simp [create_sessions, create_sessions_aux, hgap]
  · intro hd
    have h0 : (0 : Int) ≤ 60 * ((t : Int) - 1) := by omega
    have hlt : 60 * ((t : Int) - 1) < 86400 := by omega
    have hgap : gapSameSession a b t = true := by
      rw [gapSameSession, hd, Int.emod_eq_of_lt h0 hlt]
      simp
    simp [create_sessions, create_sessions_aux, hgap]

/-- C8 witness: threshold `10` minutes; a `10`-minute gap splits, a
`9`-minute gap extends. -/
theorem c8_boundary_witness :
    create_sessions [c8W, c8X] 10 = [[c8W], [c8X]]
    ∧ create_sessions [c8W, c8Y] 10 = [[c8W, c8Y]] :=
  ⟨(c8_threshold_boundary c8W c8X 10 (by decide) (by decide)).1 (by decide),
   (c8_threshold_boundary c8W c8Y 10 (by decide) (by decide)).2 (by decide)⟩

/-- C9.  Each surviving session yields exactly one output line (line
count = surviving-session count); each line is the JSON record
`{"text": ...}` whose value lists each message as
`<|im_start|>author\ntext<|im_end|>` with turn blocks joined by single
newlines; and the output content after a run is independent of the file's
previous content (`open(..., "w")` truncates). -/
theorem c9_one_line_per_session (chats : List Chat) (target : Option String)
    (cutoff : Int) (threshold : Nat) (delimiter : String)
    (allSessions : List (List Message))
    (h : sessions_of_chats target threshold delimiter (date_filter cutoff chats)
          = some allSessions) :
    transform_chats chats target cutoff threshold delimiter
      = some (output_lines allSessions)
    ∧ (output_lines allSessions).length = allSessions.length
    ∧ output_lines allSessions
        = allSessions.map (fun s => "\x7b\"text\": " ++ jsonString (format_session s) ++ "\x7d")
    ∧ (∀ (m : Message) (rest : List Message),
        format_session (m :: rest)
          = format_turn m ++ (if rest = [] then "" else "\n" ++ format_session rest))
    ∧ (∀ (previous : String) (lines : List String),
        write_output previous lines = write_output "" lines) := by
  refine ⟨by rw [transform_chats, h]; rfl, by simp [output_lines], rfl, ?_, fun _ _ => rfl⟩
  intro m rest
  cases rest with
  | nil => simp [format_session, joinWith, format_turn, String.append_empty]
  | cons r rs =>
    simp only [format_session, List.map_cons, joinWith, if_neg (List.cons_ne_nil r rs)]
    rw [String.append_assoc]

/-- C9 witness: one chat, one surviving session, one output line. -/
theorem c9_witness :
    transform_chats [c9Chat] (some "Alice") (-1) 10 "\n>>>"
      = some (output_lines [[⟨0, "Bob", ">>>q"⟩, ⟨60, "Alice", ">>>a"⟩]]) :=
  (c9_one_line_per_session [c9Chat] (some "Alice") (-1) 10 "\n>>>"
    [[⟨0, "Bob", ">>>q"⟩, ⟨60, "Alice", ">>>a"⟩]] (by decide)).1

/-- C10.  The merger reads `session[0]` and would fail on an empty session
(`combineSession _ [] = none`), but every session `create_sessions`
produces is non-empty — an empty message list yields no session at all —
so in the pipeline the merger always succeeds. -/
theorem c10_merger_index_in_bounds (messages : List Message) (threshold : Nat)
    (delimiter : String) :
    (∀ s ∈ create_sessions messages threshold, s ≠ [])
    ∧ create_sessions [] threshold = []
    ∧ combineSession delimiter [] = none
    ∧ (combine_consecutive_messages (create_sessions messages threshold) delimiter).isSome
        = true := by
  refine ⟨create_sessions_ne_nil messages threshold, rfl, rfl, ?_⟩
  obtain ⟨C, hC⟩ := combine_isSome_of_ne_nil delimiter
    (create_sessions messages threshold) (create_sessions_ne_nil messages threshold)
  rw [hC]
  rfl

end Finetuning
